import Mathlib

/-!
# Verification of the process-dispatcher core

Shallow embedding of the `process-dispatcher` Rust service:
`src/dispatcher.rs` (Scheduler skip decision, Assigner claim loop,
`DispatchState`, `ProcessingMode`, `DispatchTimeFormatter`),
`src/db_repository.rs` (the two connection pools and the five queries),
`src/responses.rs` (`AssignedProcess` and its serde serialization),
`src/http_server/route_handlers.rs` (`assign_process_handler`),
`src/async_keyed_mutex.rs` (`AsyncKeyedMutex`),
`src/cancellation_ext.rs` (`with_cancellation`).

Machine integers are modelled by `Nat`/`Int`; UUIDs by `String`
(their hyphenated form); database rows by explicit structures; the
two MySQL pools by two explicit row lists inside one `DbStore`.
-/

namespace PD

/-! ## DispatchState and ProcessingMode (src/dispatcher.rs:243-351) -/

/-- `DispatchState` enum from src/dispatcher.rs:251-258. -/
inductive DispatchState where
  | Created
  | Pending
  | Processing
  | Error
  | Completed
  | Failed
deriving DecidableEq, Repr

/-- `DispatchState::new` (src/dispatcher.rs:261-272).  The Rust function
panics on an unknown string; the panic is modelled by `none`. -/
def DispatchState.new (value : String) : Option DispatchState :=
  if value = "created" then some .Created
  else if value = "pending" then some .Pending
  else if value = "processing" then some .Processing
  else if value = "error" then some .Error
  else if value = "completed" then some .Completed
  else if value = "failed" then some .Failed
  else none

/-- `DispatchState::is_finished` (src/dispatcher.rs:274-282):
`matches!(self, Completed | Failed)`. -/
def DispatchState.is_finished : DispatchState → Bool
  | .Completed => true
  | .Failed => true
  | _ => false

/-- `Display for DispatchState` (src/dispatcher.rs:285-296); this is the
string bound into all SQL queries. -/
def DispatchState.toDbString : DispatchState → String
  | .Created => "created"
  | .Pending => "pending"
  | .Processing => "processing"
  | .Error => "error"
  | .Completed => "completed"
  | .Failed => "failed"

/-- `ProcessingMode` enum (src/dispatcher.rs:322-326) with
discriminants Regular = 1, Sandbox = 2. -/
inductive ProcessingMode where
  | Regular
  | Sandbox
deriving DecidableEq, Repr

/-- `ProcessingMode::new` (src/dispatcher.rs:329-335); panic on an
unknown discriminant is modelled by `none`. -/
def ProcessingMode.new : Nat → Option ProcessingMode
  | 1 => some .Regular
  | 2 => some .Sandbox
  | _ => none

/-- `impl From<ProcessingMode> for u8` (src/dispatcher.rs:338-342). -/
def ProcessingMode.toU8 : ProcessingMode → Nat
  | .Regular => 1
  | .Sandbox => 2

/-- `Display for ProcessingMode` (src/dispatcher.rs:344-351). -/
def ProcessingMode.toDisplay : ProcessingMode → String
  | .Regular => "Regular"
  | .Sandbox => "Sandbox"

/-! ## Calendar arithmetic and the Europe/Berlin conversion

`DispatchTimeFormatter` (src/dispatcher.rs:298-317) parses the DB
`created_at` string with chrono, interprets it as UTC, and converts it
into `Europe/Berlin` (`TIMEZONE`, src/dispatcher.rs:22) via chrono-tz.
The parse result is modelled directly as a `NaiveDateTime` record; the
chrono-tz Europe/Berlin zone is modelled by the IANA rule it applies to
all modern instants: CET (UTC+1) outside daylight-saving time and CEST
(UTC+2) between the last Sunday of March 01:00 UTC and the last Sunday
of October 01:00 UTC. -/

/-- Days since 1970-01-01 of a civil date (proleptic Gregorian). -/
def daysFromCivil (y : Int) (m d : Nat) : Int :=
  let y' : Int := if m ≤ 2 then y - 1 else y
  let era : Int := y'.fdiv 400
  let yoe : Int := y' - era * 400
  let mp : Int := (Int.ofNat m + 9).emod 12
  let doy : Int := (153 * mp + 2).fdiv 5 + Int.ofNat d - 1
  let doe : Int := yoe * 365 + yoe.fdiv 4 - yoe.fdiv 100 + doy
  era * 146097 + doe - 719468

/-- Civil date (y, m, d) of a day count since 1970-01-01. -/
def civilFromDays (z0 : Int) : Int × Int × Int :=
  let z : Int := z0 + 719468
  let era : Int := z.fdiv 146097
  let doe : Int := z - era * 146097
  let yoe : Int := (doe - doe.fdiv 1460 + doe.fdiv 36524 - doe.fdiv 146096).fdiv 365
  let y : Int := yoe + era * 400
  let doy : Int := doe - (365 * yoe + yoe.fdiv 4 - yoe.fdiv 100)
  let mp : Int := (5 * doy + 2).fdiv 153
  let d : Int := doy - (153 * mp + 2).fdiv 5 + 1
  let m : Int := if mp < 10 then mp + 3 else mp - 9
  (if m ≤ 2 then y + 1 else y, m, d)

/-- Day of week of a day count (0 = Sunday); 1970-01-01 was a Thursday. -/
def weekdayOfDays (z : Int) : Int := (z + 4).emod 7

/-- Day of month of the last Sunday of a 31-day month. -/
def lastSunday (y : Int) (m : Nat) : Int :=
  31 - weekdayOfDays (daysFromCivil y m 31)

/-- UTC offset (in seconds) applied by chrono-tz `Europe/Berlin` at a
given UTC instant: 7200 during daylight-saving time, 3600 otherwise. -/
def berlinOffset (utcSecs : Int) : Int :=
  let y := (civilFromDays (utcSecs.fdiv 86400)).1
  let dstStart := (daysFromCivil y 3 (lastSunday y 3).toNat) * 86400 + 3600
  let dstEnd := (daysFromCivil y 10 (lastSunday y 10).toNat) * 86400 + 3600
  if dstStart ≤ utcSecs ∧ utcSecs < dstEnd then 7200 else 3600

/-- A parsed `%Y-%m-%d %H:%M:%S%.f` database timestamp (the result of
`NaiveDateTime::parse_from_str` in `DispatchTimeFormatter::db_to_dt`,
src/dispatcher.rs:301-307). -/
structure NaiveDateTime where
  year : Int
  month : Nat
  day : Nat
  hour : Nat
  minute : Nat
  second : Nat
  millis : Nat
deriving DecidableEq, Repr

/-- Seconds since the Unix epoch of a naive timestamp read as UTC
(`DateTime::<Utc>::from_naive_utc_and_offset`, src/dispatcher.rs:305). -/
def NaiveDateTime.toEpochSecs (t : NaiveDateTime) : Int :=
  daysFromCivil t.year t.month t.day * 86400
    + Int.ofNat (t.hour * 3600 + t.minute * 60 + t.second)

/-- Milliseconds since the Unix epoch (what chrono's
`ts_milliseconds` serializer emits for a `DateTime<Utc>`). -/
def NaiveDateTime.toEpochMillis (t : NaiveDateTime) : Int :=
  t.toEpochSecs * 1000 + Int.ofNat t.millis

/-- The timezone argument of `DispatchTimeFormatter::db_to_dt`. -/
inductive Tz where
  | UTC
  | Berlin
deriving DecidableEq, Repr

/-- `.date_naive()` of a `DateTime<Tz>`: the civil date of the UTC
instant shifted by the zone's offset. -/
def dateNaiveInTz (tz : Tz) (utcSecs : Int) : Int × Int × Int :=
  match tz with
  | .UTC => civilFromDays (utcSecs.fdiv 86400)
  | .Berlin => civilFromDays ((utcSecs + berlinOffset utcSecs).fdiv 86400)

/-- `DispatchTimeFormatter::db_to_dt(s, tz).date_naive()`
(src/dispatcher.rs:301-307): parse as UTC, convert to `tz` (defaulting
to `Europe/Berlin` when `None`), take the local calendar date. -/
def db_to_dt_date (t : NaiveDateTime) (tz : Option Tz) : Int × Int × Int :=
  dateNaiveInTz (tz.getD .Berlin) t.toEpochSecs

/-- The Europe/Berlin calendar date of a UTC instant; this is
`now.date_naive()` for `now = DispatchTimeFormatter::now_dt()`
(src/dispatcher.rs:309-312). -/
def berlinDate (utcSecs : Int) : Int × Int × Int := dateNaiveInTz .Berlin utcSecs

/-! ## Rows and the two database pools (src/db_repository.rs)

`DbRepository` holds two MySQL pools: `pd_connection_pool` and
`mvp_connection_pool` (src/db_repository.rs:7-10).  Each pool's
`dispatcher_processes` table is modelled as a list of rows; which list
an operation touches is taken verbatim from the pool it names in the
source.  UUIDs are modelled as their hyphenated strings.  A query
whose SQL the server rejects is modelled by the `sqlx::Error` its
stream yields on the first pull. -/

/-- `sqlx::Error`, identified by its message. -/
structure SqlxError where
  msg : String
deriving DecidableEq, Repr

/-- The MySQL error produced by preparing a statement with a parameter
marker after `IS`: the `IS` operator accepts only `NULL`, `TRUE`,
`FALSE` or `UNKNOWN`, so the server answers ER_PARSE_ERROR 1064. -/
def er_parse_error : SqlxError :=
  { msg := "error returned from database: 1064 (42000): syntax error near IS ?" }

/-- One row of `dispatcher_processes` (schema in the spec §6; columns
as read in src/dispatcher.rs:98-143 and 199-215). -/
structure ProcessRow where
  uuid : String
  source_id : Nat
  state : String
  mode : Nat
  supervisor_id : Option String
  created_at : NaiveDateTime
deriving DecidableEq, Repr

/-- The rows of `dispatcher_processes` as seen through each of the two
connection pools of `DbRepository` (src/db_repository.rs:7-10). -/
structure DbStore where
  pd : List ProcessRow
  mvp : List ProcessRow
deriving DecidableEq, Repr

/-- Stable insertion step for `ORDER BY created_at ASC`. -/
def insertAscByCreatedAt (r : ProcessRow) : List ProcessRow → List ProcessRow
  | [] => [r]
  | x :: xs =>
    if r.created_at.toEpochMillis ≤ x.created_at.toEpochMillis then r :: x :: xs
    else x :: insertAscByCreatedAt r xs

/-- `ORDER BY created_at ASC` over a row list. -/
def orderByCreatedAtAsc (l : List ProcessRow) : List ProcessRow :=
  l.foldr insertAscByCreatedAt []

/-- `DbRepository::insert_new_process` (src/db_repository.rs:43-65):
`INSERT INTO dispatcher_processes (uuid, source_id, state, mode)` on the
**pd** pool; `supervisor_id` stays NULL and `created_at` takes the
database default `CURRENT_TIMESTAMP(3)` (modelled by `now`).  The fresh
`Uuid::new_v4` is modelled by the `uuid_val` argument. -/
def insert_new_process (s : DbStore) (uuid_val : String) (source_id : Nat)
    (state : DispatchState) (processing_mode : ProcessingMode)
    (now : NaiveDateTime) : DbStore :=
  { s with pd := s.pd ++
      [{ uuid := uuid_val, source_id := source_id, state := state.toDbString,
         mode := processing_mode.toU8, supervisor_id := none, created_at := now }] }

/-- `DbRepository::get_latest_process_for` (src/db_repository.rs:67-75):
`SELECT * ... WHERE source_id = ? ORDER BY created_at DESC LIMIT 1` on
the **pd** pool. -/
def get_latest_process_for (s : DbStore) (source_id : Nat) : Option ProcessRow :=
  ((orderByCreatedAtAsc (s.pd.filter (fun r => r.source_id == source_id))).reverse).head?

/-- `DbRepository::get_available_source_processes_stream`
(src/db_repository.rs:77-98): `SELECT * ... WHERE source_id = ? AND
state IN ('created','pending') ORDER BY created_at ASC LIMIT ?`,
fetched from the **mvp** pool (src/db_repository.rs:95). -/
def get_available_source_processes_stream (s : DbStore) (source_id : Nat)
    (limit : Nat) : List ProcessRow :=
  (orderByCreatedAtAsc (s.mvp.filter (fun r =>
      r.source_id == source_id &&
      (r.state == DispatchState.Created.toDbString ||
       r.state == DispatchState.Pending.toDbString)))).take limit

/-- `DbRepository::get_available_processes_sources_stream`
(src/db_repository.rs:100-125): `SELECT source_id ... WHERE (state IN
(?, ?) AND supervisor_id IS NULL) OR (state = ? AND supervisor_id IS ?)
ORDER BY created_at ASC LIMIT ?`, fetched from the **mvp** pool
(src/db_repository.rs:122).  The fourth placeholder stands after `IS`
(src/db_repository.rs:111) and is bound to the supervisor UUID; MySQL
accepts only `NULL`, `TRUE`, `FALSE` or `UNKNOWN` after `IS`, so the
server rejects the statement at prepare time and the first pull of the
stream yields ER_PARSE_ERROR 1064, whatever the store contents. -/
def get_available_processes_sources_stream (_s : DbStore)
    (_supervisor_id : String) (_limit : Nat) : Except SqlxError (List Nat) :=
  .error er_parse_error

/-- `DbRepository::assign_process_to_supervisor`
(src/db_repository.rs:127-142): `UPDATE dispatcher_processes SET
supervisor_id = ?, state = ? WHERE uuid = ?` on the **pd** pool. -/
def assign_process_to_supervisor (s : DbStore) (id : String)
    (supervisor_id : String) (assigned_state : DispatchState) : DbStore :=
  { s with pd := s.pd.map (fun r =>
      if r.uuid == id then
        { r with supervisor_id := some supervisor_id,
                 state := assigned_state.toDbString }
      else r) }

/-! ## Scheduler: `Dispatcher::process_source` (src/dispatcher.rs:98-155) -/

/-- What one `process_source` call does after reading the latest row. -/
inductive SchedulerDecision where
  | skipActive
  | skipSameDay
  | insert (state : DispatchState) (mode : ProcessingMode)
deriving DecidableEq, Repr

/-- `Dispatcher::process_source` (src/dispatcher.rs:98-155), as a
function of the latest-process read (`get_latest_process_for`) and the
current UTC instant.  `none` models the panic on an unknown `state`
string.  The source inserts via
`insert_new_process(source_id, DispatchState::Created,
ProcessingMode::Regular)` (src/dispatcher.rs:145-148). -/
def process_source (latest : Option ProcessRow) (nowUtcSecs : Int) :
    Option SchedulerDecision :=
  match latest with
  | some process =>
    match DispatchState.new process.state with
    | none => none
    | some state =>
      if !state.is_finished then some .skipActive
      else
        let created_at_date := db_to_dt_date process.created_at none
        let now_date := berlinDate nowUtcSecs
        if now_date = created_at_date then some .skipSameDay
        else some (.insert .Created .Regular)
  | none => some (.insert .Created .Regular)

/-! ## Assigner: `Dispatcher::assign_process` (src/dispatcher.rs:157-240) -/

/-- `AssignedProcess` (src/responses.rs:5-15), built in
src/dispatcher.rs:228-235; `created_at` is the row's timestamp parsed
as UTC (`db_to_dt(.., Some(UTC)).to_utc()`). -/
structure AssignedProcess where
  id : String
  source_id : Nat
  state : DispatchState
  mode : ProcessingMode
  created_at : NaiveDateTime
  supervisor_id : String
deriving DecidableEq, Repr

/-- Inner loop of `Dispatcher::assign_process` (src/dispatcher.rs:188-238)
over the rows pulled from `get_available_source_processes_stream`:
parse each row (outer `none` models the panics on bad `state`/`mode`),
claim the first row that is active and unassigned, otherwise exhaust
the stream and break to the next candidate source (`some none`). -/
def assignInner (s : DbStore) (supervisor_id : String) (source_id : Nat) :
    List ProcessRow → Option (Option (DbStore × AssignedProcess))
  | [] => some none
  | process_row :: rest =>
    match DispatchState.new process_row.state, ProcessingMode.new process_row.mode with
    | some state, some processing_mode =>
      if !state.is_finished && process_row.supervisor_id == none then
        let new_state := DispatchState.Processing
        let s' := assign_process_to_supervisor s process_row.uuid supervisor_id new_state
        some (some (s',
          { id := process_row.uuid, source_id := source_id, state := new_state,
            mode := processing_mode, created_at := process_row.created_at,
            supervisor_id := supervisor_id }))
      else assignInner s supervisor_id source_id rest
    | _, _ => none

/-- Outer loop of `Dispatcher::assign_process` (src/dispatcher.rs:168-239)
over the candidate source ids pulled from
`get_available_processes_sources_stream`. -/
def assignOuter (s : DbStore) (supervisor_id : String) :
    List Nat → Option (Except SqlxError (DbStore × Option AssignedProcess))
  | [] => some (.ok (s, none))
  | source_id :: restSources =>
    let processes := get_available_source_processes_stream s source_id 1
    match assignInner s supervisor_id source_id processes with
    | none => none
    | some (some (s', ap)) => some (.ok (s', some ap))
    | some none => assignOuter s supervisor_id restSources

/-- `Dispatcher::assign_process` (src/dispatcher.rs:157-240): open the
candidate stream (lazy, so obtaining it succeeds), then pull it —
`sources_stream.try_next().await?` (src/dispatcher.rs:169) propagates
the stream's error, which for this query is the guaranteed
ER_PARSE_ERROR — and only with candidates in hand run the claim loop.
Returns `Err` or the store after the call together with the optional
claim; the outer `none` models a panic on a malformed row. -/
def assign_process (s : DbStore) (supervisor_id : String) :
    Option (Except SqlxError (DbStore × Option AssignedProcess)) :=
  match get_available_processes_sources_stream s supervisor_id 10 with
  | .error e => some (.error e)
  | .ok candidates => assignOuter s supervisor_id candidates

/-! ## JSON serialization (serde) and the HTTP handler -/

/-- The fragment of JSON needed for the response bodies. -/
inductive Json where
  | str (s : String)
  | num (n : Int)
  | obj (fields : List (String × Json))
deriving Repr

/-- Field access in a JSON object. -/
def Json.getField (j : Json) (k : String) : Option Json :=
  match j with
  | .obj fields => (fields.find? (fun f => f.1 == k)).map (·.2)
  | _ => none

/-- serde serialization of `DispatchState` (derive(Serialize) on a
unit-variant enum, src/dispatcher.rs:250-258: the variant name). -/
def DispatchState.serdeJson : DispatchState → Json
  | .Created => .str "Created"
  | .Pending => .str "Pending"
  | .Processing => .str "Processing"
  | .Error => .str "Error"
  | .Completed => .str "Completed"
  | .Failed => .str "Failed"

/-- serde serialization of `ProcessingMode` (derive(Serialize),
src/dispatcher.rs:322-326: the variant name). -/
def ProcessingMode.serdeJson : ProcessingMode → Json
  | .Regular => .str "Regular"
  | .Sandbox => .str "Sandbox"

/-- serde serialization of `AssignedProcess` (src/responses.rs:5-15):
fields in declaration order; `r#mode` renamed to `"mode"`;
`created_at` through `chrono::serde::ts_milliseconds`. -/
def AssignedProcess.serdeJson (p : AssignedProcess) : Json :=
  .obj [("id", .str p.id),
        ("source_id", .num (Int.ofNat p.source_id)),
        ("state", p.state.serdeJson),
        ("mode", p.mode.serdeJson),
        ("created_at", .num p.created_at.toEpochMillis),
        ("supervisor_id", .str p.supervisor_id)]

/-- `assign_process_handler` (src/http_server/route_handlers.rs:9-40)
as a function of the `Dispatcher::assign_process` outcome: repository
error → 500 with `"Failed to assign process: <reason>"`; no claim →
204 with `"No available processes to assign"`; claim → 200 with the
serialized `AssignedProcess`. -/
def assign_process_handler (res : Except String (Option AssignedProcess)) :
    Nat × Json :=
  match res with
  | .error e => (500, .obj [("message", .str ("Failed to assign process: " ++ e))])
  | .ok none => (204, .obj [("message", .str "No available processes to assign")])
  | .ok (some ap) => (200, ap.serdeJson)

/-! ## AsyncKeyedMutex (src/async_keyed_mutex.rs)

The DashMap from key to `Weak<V>` is modelled by an association list
from key to a handle identifier; an identifier is "alive" (its `Weak`
still upgrades, i.e. some `Arc` strong reference exists) exactly when
it is in the `live` list.  `Arc::new` allocates the next fresh
identifier. -/

/-- The `AsyncKeyedMutex` map plus the liveness of each handle. -/
structure KeyedMutexState where
  map : List (Nat × Nat)
  live : List Nat
  nextId : Nat
deriving DecidableEq, Repr

/-- Lookup in the association-list model of the DashMap. -/
def mapLookup : List (Nat × Nat) → Nat → Option Nat
  | [], _ => none
  | e :: rest, k => if e.1 == k then some e.2 else mapLookup rest k

/-- `Entry::Occupied(..).insert` — replace the value stored under an
existing key, in place. -/
def mapReplace : List (Nat × Nat) → Nat → Nat → List (Nat × Nat)
  | [], _, _ => []
  | e :: rest, k, v => if e.1 == k then (k, v) :: rest else e :: mapReplace rest k v

/-- `Weak::upgrade` succeeding: the handle still has a strong owner. -/
def liveContains (live : List Nat) (h : Nat) : Bool :=
  match live with
  | [] => false
  | x :: xs => x == h || liveContains xs h

/-- `AsyncKeyedMutex::get_mutex` (src/async_keyed_mutex.rs:24-43):
occupied entry whose weak still upgrades → return that same handle;
occupied-but-dead entry → fresh `Arc`, replace the weak reference;
vacant entry → fresh `Arc`, install a weak reference. -/
def get_mutex (s : KeyedMutexState) (key : Nat) : Nat × KeyedMutexState :=
  match mapLookup s.map key with
  | some h =>
    if liveContains s.live h then (h, s)
    else
      let arc := s.nextId
      (arc, { map := mapReplace s.map key arc, live := arc :: s.live,
              nextId := arc + 1 })
  | none =>
    let arc := s.nextId
    (arc, { map := s.map ++ [(key, arc)], live := arc :: s.live,
            nextId := arc + 1 })

/-- `AsyncKeyedMutex::cleanup` (src/async_keyed_mutex.rs:45-55):
collect every key whose weak value no longer upgrades, then remove
those keys; with unique keys this keeps exactly the live entries. -/
def cleanup (s : KeyedMutexState) : KeyedMutexState :=
  { s with map := s.map.filter (fun e => liveContains s.live e.2) }

/-! ## Cancellation (src/cancellation_ext.rs)

`CancellationToken` is a one-shot latch, modelled by a `Bool`.
`with_cancellation` (src/cancellation_ext.rs:369-392) wraps an
operation in `tokio::select!` racing `token.cancelled()` against the
operation.  `tokio::select!` polls its branches in a random order and
the first **ready** branch wins; the poll order is made explicit as an
argument, and the wrapped operation is modelled by its readiness at
that poll (`none` = still pending, `some r` = ready with result `r`). -/

/-- `CancellationToken::cancel`: set the latch. -/
def cancelToken (_t : Bool) : Bool := true

/-- The two branches of the `tokio::select!` in `with_cancellation`. -/
inductive SelectBranch where
  | cancelledBranch
  | opBranch
deriving DecidableEq, Repr

/-- The error type produced by `with_cancellation`:
`CancellationError.into()` or the original error (`map_err(Into::into)`). -/
inductive WcError (E : Type) where
  | cancelledErr
  | orig (e : E)
deriving DecidableEq, Repr

/-- Readiness of each select branch: `token.cancelled()` is ready once
the latch is set; the wrapped operation is ready when its outcome is
available. -/
def branchReady {T E : Type} (tokenCancelled : Bool)
    (opOutcome : Option (Except E T)) : SelectBranch → Bool
  | .cancelledBranch => tokenCancelled
  | .opBranch => opOutcome.isSome

/-- `with_cancellation` (src/cancellation_ext.rs:379-391): the first
ready branch in the poll order wins; the cancelled branch yields
`Err(CancellationError.into())`, the operation branch yields its
result with the error converted; `none` = the composed future is
still pending. -/
def with_cancellation {T E : Type} (tokenCancelled : Bool)
    (opOutcome : Option (Except E T)) (pollOrder : List SelectBranch) :
    Option (Except (WcError E) T) :=
  match pollOrder.find? (branchReady tokenCancelled opOutcome) with
  | some .cancelledBranch => some (.error .cancelledErr)
  | some .opBranch =>
    match opOutcome with
    | some (.ok v) => some (.ok v)
    | some (.error e) => some (.error (.orig e))
    | none => none
  | none => none

/-! ## Lock-event traces for the per-source critical sections

`prepare_schedule` (src/dispatcher.rs:86-92) and `assign_process`
(src/dispatcher.rs:180-196) both run, per source id:
`let lock = self.source_locks.get_mutex(source_id);` — which only
clones the `Arc<tokio::sync::Mutex<()>>` — then the critical section
(steps c-f resp. the candidate inspection and assignment), then
`drop(lock)`.  Neither call site ever calls `Mutex::lock` on the
handle.  Each call site is transcribed as the sequence of events it
emits for one source id; `lockAcquire`/`lockRelease` are the events a
`Mutex::lock`/guard-drop would emit. -/

/-- Events of one task working on a fixed source id. -/
inductive SchedEvent where
  | acquireHandle
  | critBegin
  | critEnd
  | dropHandle
  | lockAcquire
  | lockRelease
deriving DecidableEq, Repr

/-- Events emitted by the per-source body of `prepare_schedule`
(src/dispatcher.rs:86-92): `get_mutex`, steps c-f, `drop(lock)`. -/
def scheduler_source_section : List SchedEvent :=
  [.acquireHandle, .critBegin, .critEnd, .dropHandle]

/-- Events emitted by the per-candidate body of `assign_process`
(src/dispatcher.rs:180-196): `get_mutex`, inspect-and-assign,
`drop(lock)`. -/
def assigner_source_section : List SchedEvent :=
  [.acquireHandle, .critBegin, .critEnd, .dropHandle]

/-- Events of a given task inside an interleaved trace. -/
def projectTask (tr : List (Nat × SchedEvent)) (t : Nat) : List SchedEvent :=
  tr.filterMap (fun p => if p.1 == t then some p.2 else none)

/-- The mutex discipline on the shared handle: `lockAcquire` succeeds
only while no task holds the lock, `lockRelease` only by the holder.
All other events are always enabled. -/
def lockDisciplineOk : List (Nat × SchedEvent) → Option Nat → Bool
  | [], _ => true
  | (t, e) :: rest, holder =>
    match e, holder with
    | .lockAcquire, none => lockDisciplineOk rest (some t)
    | .lockAcquire, some _ => false
    | .lockRelease, some t' => t == t' && lockDisciplineOk rest none
    | .lockRelease, none => false
    | _, _ => lockDisciplineOk rest holder

/-- A trace is a valid concurrent execution of two tasks running the
given per-source programs on the same source id when its projections
are exactly the two programs and the mutex discipline holds. -/
def validTwoTaskExec (tr : List (Nat × SchedEvent))
    (prog1 prog2 : List SchedEvent) : Bool :=
  projectTask tr 1 == prog1 && projectTask tr 2 == prog2 &&
    lockDisciplineOk tr none

/-- Whether at some point two tasks are simultaneously inside their
critical sections. -/
def critOverlap : List (Nat × SchedEvent) → List Nat → Bool
  | [], _ => false
  | (t, .critBegin) :: rest, inside =>
    if inside.isEmpty then critOverlap rest (t :: inside) else true
  | (t, .critEnd) :: rest, inside => critOverlap rest (inside.erase t)
  | _ :: rest, inside => critOverlap rest inside

/-! ## The `prepare_schedule` tick loop (src/dispatcher.rs:51-96)

The loop races the shutdown receiver against the next stream item and
then processes the item.  The observed sequence of loop inputs is
modelled as a list of events: a shutdown-signal arrival, an inline
stream error (propagated by `try_next()?`), or a source-id row.  The
`process_source` call is modelled by its result for each source id;
its error branch only logs (`error!`, src/dispatcher.rs:89-91). -/

/-- `DispatcherError` (src/dispatcher/error.rs:3-7). -/
inductive DispatcherError where
  | DbError (e : SqlxError)
  | TerminatingSignalReceived
deriving DecidableEq, Repr

/-- One observed input of the `prepare_schedule` fetch loop. -/
inductive TickEvent where
  | shutdown
  | streamErr (e : SqlxError)
  | row (source_id : Nat)
deriving DecidableEq, Repr

/-- What a completed tick did: which sources were processed and for
which of them a `process_source` error was logged. -/
structure TickOutcome where
  processed : List Nat
  loggedErrors : List Nat
deriving DecidableEq, Repr

/-- The fetch loop of `prepare_schedule` (src/dispatcher.rs:72-95):
a shutdown signal returns `TerminatingSignalReceived`; a stream error
is propagated as `DbError` by `?`; a row is processed and a
`process_source` error is only logged; stream exhaustion returns Ok. -/
def prepare_schedule_loop (procResult : Nat → Except DispatcherError Unit) :
    List TickEvent → Except DispatcherError TickOutcome
  | [] => .ok { processed := [], loggedErrors := [] }
  | .shutdown :: _ => .error .TerminatingSignalReceived
  | .streamErr e :: _ => .error (.DbError e)
  | .row source_id :: rest =>
    let logged := match procResult source_id with
      | .error _ => [source_id]
      | .ok _ => []
    match prepare_schedule_loop procResult rest with
    | .error e => .error e
    | .ok r => .ok { processed := source_id :: r.processed,
                     loggedErrors := logged ++ r.loggedErrors }

/-! ## Stores reachable through the repository operations

`insert_new_process` and `assign_process_to_supervisor` are the only
writes in the repository; their only callers are
`Dispatcher::process_source`, which inserts with
`(DispatchState::Created, ProcessingMode::Regular)`
(src/dispatcher.rs:145-148), and `Dispatcher::assign_process`, which
assigns `DispatchState::Processing` together with a supervisor id
(src/dispatcher.rs:223-226). -/

/-- Stores producible by interleaving Scheduler inserts and Assigner
assignments, starting from an empty store. -/
inductive ReachableStore : DbStore → Prop where
  | init : ReachableStore ⟨[], []⟩
  | schedulerInsert (s : DbStore) (uuid : String) (source_id : Nat)
      (now : NaiveDateTime) : ReachableStore s →
      ReachableStore (insert_new_process s uuid source_id .Created .Regular now)
  | assignerAssign (s : DbStore) (id supervisor_id : String) :
      ReachableStore s →
      ReachableStore (assign_process_to_supervisor s id supervisor_id .Processing)

/-! ## Spec-side wordings

Definitions that follow the specification text, to be compared with the
embedded code. -/

/-- Spec §3: `completed` and `failed` are terminal. -/
def terminalSpec (state : String) : Prop :=
  state = "completed" ∨ state = "failed"

/-- Spec §4.4 step d: `created_at` converted UTC→Europe/Berlin falls on
the same Europe/Berlin calendar day as the current time. -/
def sameBerlinDaySpec (created_at : NaiveDateTime) (nowUtcSecs : Int) : Prop :=
  berlinDate created_at.toEpochSecs = berlinDate nowUtcSecs

/-! ## Concrete fixtures used by the closed theorems -/

/-- A fixed `created_at` timestamp: 2024-06-01 08:00:00 UTC. -/
def t0 : NaiveDateTime := ⟨2024, 6, 1, 8, 0, 0, 0⟩

/-- A `created`, unassigned row for source 1. -/
def rowCreatedU1 : ProcessRow :=
  { uuid := "U-1", source_id := 1, state := "created", mode := 1,
    supervisor_id := none, created_at := t0 }

/-- An `error` row for source 1 owned by supervisor `S-1`. -/
def rowErrorU1 : ProcessRow :=
  { uuid := "U-1", source_id := 1, state := "error", mode := 1,
    supervisor_id := some "S-1", created_at := t0 }

/-- The `AssignedProcess` value the successful-claim path constructs
(src/dispatcher.rs:228-235) for the row `rowCreatedU1` claimed by
supervisor `S-1`: id/source/mode/timestamp from the row, the fresh
state `Processing`, the supervisor from the request. -/
def apCoherent : AssignedProcess :=
  { id := "U-1", source_id := 1, state := .Processing, mode := .Regular,
    created_at := t0, supervisor_id := "S-1" }

/-- The error row visible through both pools. -/
def storeError : DbStore := ⟨[rowErrorU1], [rowErrorU1]⟩

/-- The store produced by `insert_new_process` alone: the row exists in
the pd pool only, as in the spec's S5 setup. -/
def storePdOnly : DbStore :=
  insert_new_process ⟨[], []⟩ "U-1" 1 .Created .Regular t0

/-- The spec's S4 latest row: `completed`, created 2024-05-31 21:00 UTC
(23:00 Berlin on 05-31). -/
def rowS4 : ProcessRow :=
  { uuid := "u-s4", source_id := 1, state := "completed", mode := 1,
    supervisor_id := none, created_at := ⟨2024, 5, 31, 21, 0, 0, 0⟩ }

/-- The spec's S4 clock: 2024-06-01 07:00 UTC (09:00 Berlin). -/
def nowS4 : Int := NaiveDateTime.toEpochSecs ⟨2024, 6, 1, 7, 0, 0, 0⟩

/-- An interleaving of two per-source bodies (task 1 running the
Scheduler's, task 2 the Assigner's, same source id) in which both
critical sections are simultaneously open. -/
def overlappingTrace : List (Nat × SchedEvent) :=
  [(1, .acquireHandle), (2, .acquireHandle), (1, .critBegin), (2, .critBegin),
   (1, .critEnd), (2, .critEnd), (1, .dropHandle), (2, .dropHandle)]

/-- A reachable store: one Scheduler insert followed by one Assigner
assignment. -/
def storeC6 : DbStore :=
  assign_process_to_supervisor
    (insert_new_process ⟨[], []⟩ "U-1" 1 .Created .Regular t0) "U-1" "S-1" .Processing

/-- A keyed-mutex state: key 5 maps to live handle 0, key 7 to dead
handle 1. -/
def kmState1 : KeyedMutexState := { map := [(5, 0), (7, 1)], live := [0], nextId := 2 }

/-- A per-source result where source 1 fails with a DB error and every
other source succeeds. -/
def procResultC10 : Nat → Except DispatcherError Unit :=
  fun sid => if sid = 1 then .error (.DbError ⟨"db"⟩) else .ok ()

/-! # Theorems -/

/-- **C1.** The per-source bodies of `prepare_schedule` and
`assign_process` only clone the `Arc` returned by `get_mutex` and never
acquire the `tokio::sync::Mutex` inside it: neither transcribed section
contains a `lockAcquire` event, and consequently the fully interleaved
trace `overlappingTrace` — in which the Scheduler's steps c-f and the
Assigner's inspect-and-assign section for the same source id overlap in
time — is a valid execution.  This refutes the claimed mutual
exclusion. -/
theorem scheduler_assigner_critical_sections_can_overlap :
    validTwoTaskExec overlappingTrace scheduler_source_section
      assigner_source_section = true ∧
    critOverlap overlappingTrace [] = true ∧
    SchedEvent.lockAcquire ∉ scheduler_source_section ∧
    SchedEvent.lockAcquire ∉ assigner_source_section := by decide

/-- **C3.** On the spec's S5 store — the single `created` row written
by `insert_new_process` — `assign_process` does not return the claimed
200 with the updated row: its candidate query (`supervisor_id IS ?`)
fails with the MySQL parse error on the very first pull, so the call
returns that `Err` and the handler answers 500.  Independently of that
failure, the per-source claimable query reads the mvp pool while the
insert wrote the pd pool, so it does not observe the inserted row
either. -/
theorem assign_process_blind_to_pd_insert :
    storePdOnly.pd = [rowCreatedU1] ∧
    storePdOnly.mvp = [] ∧
    assign_process storePdOnly "S-1" = some (.error er_parse_error) ∧
    get_available_source_processes_stream storePdOnly 1 1 = [] ∧
    (assign_process_handler (.error er_parse_error.msg)).1 = 500 :=
  ⟨rfl, rfl, rfl, rfl, rfl⟩

/-- **C8.** `assign_process_handler` returns 204 with
`{"message": "No available processes to assign"}` exactly when the
Assigner returned no claim, and 500 exactly when the Assigner returned
a repository error, with the body
`{"message": "Failed to assign process: <reason>"}`. -/
theorem assign_process_handler_response_rules
    (res : Except String (Option AssignedProcess)) :
    (((assign_process_handler res).1 = 204 ∧
        (assign_process_handler res).2 =
          Json.obj [("message", .str "No available processes to assign")]) ↔
      res = .ok none) ∧
    (((assign_process_handler res).1 = 500) ↔ ∃ e, res = .error e) ∧
    (∀ e, res = .error e →
      (assign_process_handler res).2 =
        Json.obj [("message", .str ("Failed to assign process: " ++ e))]) := by
  rcases res with e | op
  · refine ⟨?_, ?_, ?_⟩
    · simp [assign_process_handler]
    · simp [assign_process_handler]
    · intro e' he; cases he; rfl
  · rcases op with _ | ap
    · refine ⟨?_, ?_, ?_⟩
      · simp [assign_process_handler]
      · simp [assign_process_handler]
      · intro e' he; cases he
    · refine ⟨?_, ?_, ?_⟩
      · simp [assign_process_handler]
      · simp [assign_process_handler]
      · intro e' he; cases he

/-- Witness for C8 at the concrete error `"boom"`. -/
theorem assign_process_handler_response_rules_witness :
    (assign_process_handler (.error "boom")).2 =
      Json.obj [("message", .str ("Failed to assign process: " ++ "boom"))] :=
  (assign_process_handler_response_rules (.error "boom")).2.2 "boom" rfl

/-- Parsing bridge: a state string accepted by `DispatchState::new`
is finished exactly when the spec calls it terminal. -/
theorem new_is_finished_iff_terminal (str : String) (st : DispatchState)
    (h : DispatchState.new str = some st) :
    st.is_finished = true ↔ terminalSpec str := by
  unfold DispatchState.new at h
  split_ifs at h with h1 h2 h3 h4 h5 h6
  · injection h with h'; subst h'; subst h1
    simp [DispatchState.is_finished, terminalSpec]
  · injection h with h'; subst h'; subst h2
    simp [DispatchState.is_finished, terminalSpec]
  · injection h with h'; subst h'; subst h3
    simp [DispatchState.is_finished, terminalSpec]
  · injection h with h'; subst h'; subst h4
    simp [DispatchState.is_finished, terminalSpec]
  · injection h with h'; subst h'; subst h5
    simp [DispatchState.is_finished, terminalSpec]
  · injection h with h'; subst h'; subst h6
    simp [DispatchState.is_finished, terminalSpec]

/-- **C2.** The Scheduler skip decision of `process_source`: given a
parseable latest row, a new process (and then one in state `created`
with mode `regular`) is inserted exactly when the latest row is absent
or terminal on an earlier Europe/Berlin calendar day; a non-terminal
latest row and a terminal same-Berlin-day latest row are both
skipped. -/
theorem process_source_skip_insert_decision (latest : Option ProcessRow)
    (nowUtcSecs : Int)
    (hv : ∀ p, latest = some p → (DispatchState.new p.state).isSome) :
    (process_source latest nowUtcSecs =
        some (.insert .Created .Regular) ↔
      (latest = none ∨ ∃ p, latest = some p ∧ terminalSpec p.state ∧
        ¬ sameBerlinDaySpec p.created_at nowUtcSecs)) ∧
    (∀ p, latest = some p → ¬ terminalSpec p.state →
      process_source latest nowUtcSecs = some .skipActive) ∧
    (∀ p, latest = some p → terminalSpec p.state →
      sameBerlinDaySpec p.created_at nowUtcSecs →
      process_source latest nowUtcSecs = some .skipSameDay) := by
  cases latest with
  | none => simp [process_source]
  | some p =>
    obtain ⟨st, hst⟩ := Option.isSome_iff_exists.mp (hv p rfl)
    have hterm := new_is_finished_iff_terminal p.state st hst
    by_cases hfin : st.is_finished = true
    · by_cases hday : berlinDate nowUtcSecs = db_to_dt_date p.created_at none
      · have hval : process_source (some p) nowUtcSecs = some .skipSameDay := by
          simp [process_source, hst, hfin, hday]
        refine ⟨?_, ?_, ?_⟩
        · rw [hval]
          constructor
          · intro hcontra; exact absurd hcontra (by simp)
          · rintro (hcontra | ⟨q, hq, _, hnot⟩)
            · exact absurd hcontra (by simp)
            · cases hq; exact absurd hday.symm hnot
        · intro q hq hqterm; cases hq
          exact absurd (hterm.mp hfin) hqterm
        · intro q hq _ _; cases hq; exact hval
      · have hval : process_source (some p) nowUtcSecs =
            some (.insert .Created .Regular) := by
          simp [process_source, hst, hfin, hday]
        refine ⟨?_, ?_, ?_⟩
        · rw [hval]
          constructor
          · intro _
            exact Or.inr ⟨p, rfl, hterm.mp hfin, fun hsame => hday hsame.symm⟩
          · intro _; rfl
        · intro q hq hqterm; cases hq
          exact absurd (hterm.mp hfin) hqterm
        · intro q hq _ hsame; cases hq
          exact absurd hsame.symm hday
    · have hfin' : st.is_finished = false := by
        revert hfin; cases st.is_finished <;> simp
      have hval : process_source (some p) nowUtcSecs = some .skipActive := by
        simp [process_source, hst, hfin']
      refine ⟨?_, ?_, ?_⟩
      · rw [hval]
        constructor
        · intro hcontra; exact absurd hcontra (by simp)
        · rintro (hcontra | ⟨q, hq, hqterm, _⟩)
          · exact absurd hcontra (by simp)
          · cases hq
            exact absurd (hterm.mpr hqterm) hfin
      · intro q hq _; cases hq; exact hval
      · intro q hq hqterm _; cases hq
        exact absurd (hterm.mpr hqterm) hfin

/-- Witness for C2 at the spec's S4 inputs: latest is `completed` on an
earlier Berlin day, so the decision is to insert a `created`/`regular`
process. -/
theorem process_source_skip_insert_decision_witness :
    process_source (some rowS4) nowS4 = some (.insert .Created .Regular) :=
  (process_source_skip_insert_decision (some rowS4) nowS4
      (by intro p hp; injection hp with h; subst h; decide)).1.mpr
    (Or.inr ⟨rowS4, rfl, Or.inl rfl, by
      unfold sameBerlinDaySpec; decide⟩)

/-- **C6.** Starting from the empty store, under any interleaving of
Scheduler inserts (state `created`, no supervisor) and Assigner
assignments (state `processing` together with a supervisor), no
reachable store contains a row with `supervisor_id` null and state
`processing`. -/
theorem reachable_store_no_unowned_processing (s : DbStore)
    (h : ReachableStore s) :
    ∀ r, r ∈ s.pd ∨ r ∈ s.mvp →
      ¬(r.supervisor_id = none ∧ r.state = "processing") := by
  induction h with
  | init =>
    intro r hr
    rcases hr with hr | hr <;> simp at hr
  | schedulerInsert s uuid source_id now _ ih =>
    intro r hr
    simp only [insert_new_process] at hr
    rcases hr with hr | hr
    · rcases List.mem_append.mp hr with hr | hr
      · exact ih r (Or.inl hr)
      · simp only [List.mem_singleton] at hr
        subst hr
        rintro ⟨_, hstate⟩
        exact absurd (show DispatchState.Created.toDbString = "processing" from hstate)
          (by decide)
    · exact ih r (Or.inr hr)
  | assignerAssign s id supervisor_id _ ih =>
    intro r hr
    simp only [assign_process_to_supervisor] at hr
    rcases hr with hr | hr
    · rcases List.mem_map.mp hr with ⟨r0, hr0, hmap⟩
      by_cases huuid : (r0.uuid == id) = true
      · rw [if_pos huuid] at hmap
        subst hmap
        rintro ⟨hsup, _⟩
        exact Option.noConfusion hsup
      · rw [if_neg huuid] at hmap
        subst hmap
        exact ih r0 (Or.inl hr0)
    · exact ih r (Or.inr hr)

/-- Witness for C6: the store after one insert and one assignment
contains the assigned row, which is owned while `processing`. -/
theorem reachable_store_no_unowned_processing_witness :
    ¬((({ uuid := "U-1", source_id := 1, state := "processing", mode := 1,
          supervisor_id := some "S-1", created_at := t0 } : ProcessRow)).supervisor_id
          = none ∧
      (({ uuid := "U-1", source_id := 1, state := "processing", mode := 1,
          supervisor_id := some "S-1", created_at := t0 } : ProcessRow)).state
          = "processing") :=
  reachable_store_no_unowned_processing storeC6
    (ReachableStore.assignerAssign _ "U-1" "S-1"
      (ReachableStore.schedulerInsert _ "U-1" 1 t0 ReachableStore.init))
    _ (Or.inl (by decide))

/-- **C7 counterexample.** With the cancellation latch already set but
the wrapped operation also ready, `tokio::select!` may poll the
operation branch first, in which case `with_cancellation` completes
with the operation result — not with the Cancelled error — so the
wrapped operation did execute. -/
theorem with_cancellation_ready_op_beats_cancelled_token :
    with_cancellation true (some (Except.ok 42) : Option (Except Unit Nat))
      [.opBranch, .cancelledBranch] = some (.ok 42) ∧
    (some (Except.ok 42) : Option (Except (WcError Unit) Nat)) ≠
      some (.error .cancelledErr) := by
  refine ⟨rfl, ?_⟩
  intro h
  injection h with h'
  exact Except.noConfusion h'

/-- **C7 amended.** Cancelling the token is idempotent, and once the
latch is set every awaited `with_cancellation` completes with the
Cancelled error whenever the cancellation branch is polled first or
the wrapped operation is not yet ready — the only escape being an
already-completed operation that wins the poll order. -/
theorem cancel_idempotent_and_cancelled_branch_wins {T E : Type}
    (opOutcome : Option (Except E T)) (order : List SelectBranch)
    (hfirst : order.head? = some SelectBranch.cancelledBranch ∨
      (opOutcome = none ∧ SelectBranch.cancelledBranch ∈ order)) :
    (∀ t : Bool, cancelToken (cancelToken t) = cancelToken t) ∧
    with_cancellation true opOutcome order =
      some (.error .cancelledErr) := by
  refine ⟨fun _ => rfl, ?_⟩
  rcases hfirst with hhead | ⟨hop, hmem⟩
  · cases order with
    | nil => simp at hhead
    | cons b rest =>
      simp only [List.head?_cons, Option.some.injEq] at hhead
      subst hhead
      simp [with_cancellation, List.find?, branchReady]
  · subst hop
    induction order with
    | nil => simp at hmem
    | cons b rest ih =>
      cases b with
      | cancelledBranch =>
        simp [with_cancellation, List.find?, branchReady]
      | opBranch =>
        have hmem' : SelectBranch.cancelledBranch ∈ rest := by
          rcases List.mem_cons.mp hmem with hc | hc
          · exact absurd hc (by simp)
          · exact hc
        have hrest := ih hmem'
        simp only [with_cancellation, List.find?] at hrest ⊢
        simpa [branchReady] using hrest

/-- Witness for C7 (amended): cancellation branch polled first, ready
operation loses. -/
theorem cancel_idempotent_and_cancelled_branch_wins_witness :
    with_cancellation true (some (Except.ok 7) : Option (Except Unit Nat))
      [SelectBranch.cancelledBranch, SelectBranch.opBranch] =
      some (.error .cancelledErr) :=
  (cancel_idempotent_and_cancelled_branch_wins
      (some (Except.ok 7)) [SelectBranch.cancelledBranch, SelectBranch.opBranch]
      (Or.inl rfl)).2

/-- **C10.** Per-source error isolation in `prepare_schedule`: if every
loop input is a source row, the tick returns Ok and processes every
row, whatever `process_source` returns (its errors are only logged),
and an error return can only originate from a shutdown signal or a
stream error among the inputs. -/
theorem prepare_schedule_loop_error_isolation
    (events : List TickEvent)
    (procResult : Nat → Except DispatcherError Unit) :
    ((∀ e ∈ events, ∃ sid, e = TickEvent.row sid) →
      ∃ r, prepare_schedule_loop procResult events = .ok r ∧
        r.processed = events.filterMap
          (fun e => match e with | .row sid => some sid | _ => none)) ∧
    (∀ err, prepare_schedule_loop procResult events = .error err →
      (err = .TerminatingSignalReceived → TickEvent.shutdown ∈ events) ∧
      (∀ se, err = .DbError se → TickEvent.streamErr se ∈ events)) := by
  induction events with
  | nil =>
    refine ⟨fun _ => ⟨⟨[], []⟩, rfl, rfl⟩, ?_⟩
    intro err herr
    exact Except.noConfusion herr
  | cons e rest ih =>
    cases e with
    | shutdown =>
      refine ⟨?_, ?_⟩
      · intro hall
        obtain ⟨sid, hsid⟩ := hall .shutdown (List.mem_cons_self _ _)
        exact TickEvent.noConfusion hsid
      · intro err herr
        have herr' : DispatcherError.TerminatingSignalReceived = err := by
          injection herr
        subst herr'
        refine ⟨fun _ => List.mem_cons_self _ _, ?_⟩
        intro se hse
        exact DispatcherError.noConfusion hse
    | streamErr se0 =>
      refine ⟨?_, ?_⟩
      · intro hall
        obtain ⟨sid, hsid⟩ := hall (.streamErr se0) (List.mem_cons_self _ _)
        exact TickEvent.noConfusion hsid
      · intro err herr
        have herr' : DispatcherError.DbError se0 = err := by
          injection herr
        subst herr'
        refine ⟨?_, ?_⟩
        · intro hcontra
          exact DispatcherError.noConfusion hcontra
        · intro se hse
          have : se0 = se := by injection hse
          subst this
          exact List.mem_cons_self _ _
    | row sid =>
      refine ⟨?_, ?_⟩
      · intro hall
        have hrest : ∀ e ∈ rest, ∃ s, e = TickEvent.row s :=
          fun e he => hall e (List.mem_cons_of_mem _ he)
        obtain ⟨r, hok, hproc⟩ := ih.1 hrest
        refine ⟨⟨sid :: r.processed,
          (match procResult sid with
            | .error _ => [sid] | .ok _ => []) ++ r.loggedErrors⟩, ?_, ?_⟩
        · simp only [prepare_schedule_loop, hok]
        · simp [hproc]
      · intro err herr
        simp only [prepare_schedule_loop] at herr
        cases hprev : prepare_schedule_loop procResult rest with
        | ok r => rw [hprev] at herr; exact Except.noConfusion herr
        | error e' =>
          rw [hprev] at herr
          have he' : e' = err := by injection herr
          subst he'
          refine ⟨?_, ?_⟩
          · intro h1
            exact List.mem_cons_of_mem _ (((ih.2 e') hprev).1 h1)
          · intro se hse
            exact List.mem_cons_of_mem _ (((ih.2 e') hprev).2 se hse)

/-- Witness for C10: a two-row tick in which source 1 fails still
completes Ok and processes both sources. -/
theorem prepare_schedule_loop_error_isolation_witness :
    (∀ e ∈ ([TickEvent.row 1, TickEvent.row 2] : List TickEvent),
      ∃ sid, e = TickEvent.row sid) ∧
    ∃ r, prepare_schedule_loop procResultC10 [TickEvent.row 1, TickEvent.row 2]
        = .ok r ∧ r.processed = [1, 2] := by
  have hall : ∀ e ∈ ([TickEvent.row 1, TickEvent.row 2] : List TickEvent),
      ∃ sid, e = TickEvent.row sid := by
    intro e he
    rcases List.mem_cons.mp he with h | h
    · exact ⟨1, h⟩
    · rcases List.mem_cons.mp h with h | h
      · exact ⟨2, h⟩
      · simp at h
  obtain ⟨r, hok, hproc⟩ :=
    (prepare_schedule_loop_error_isolation [TickEvent.row 1, TickEvent.row 2]
      procResultC10).1 hall
  exact ⟨hall, r, hok, by rw [hproc]; rfl⟩

/-- `liveContains` decides membership in the live set. -/
theorem liveContains_iff (l : List Nat) (h : Nat) :
    liveContains l h = true ↔ h ∈ l := by
  induction l with
  | nil => simp [liveContains]
  | cons x xs ih =>
    simp only [liveContains, Bool.or_eq_true, beq_iff_eq, ih, List.mem_cons]
    constructor
    · rintro (rfl | hx)
      · exact Or.inl rfl
      · exact Or.inr hx
    · rintro (rfl | hx)
      · exact Or.inl rfl
      · exact Or.inr hx

/-- An absent key looks up to `none`. -/
theorem mapLookup_eq_none_of_not_mem (m : List (Nat × Nat)) (k : Nat)
    (h : k ∉ m.map Prod.fst) : mapLookup m k = none := by
  induction m with
  | nil => rfl
  | cons e rest ih =>
    simp only [List.map_cons, List.mem_cons] at h
    push_neg at h
    have he : (e.1 == k) = false := by
      simp only [beq_eq_false_iff_ne]
      exact fun hh => h.1 hh.symm
    simp [mapLookup, he, ih h.2]

/-- Appending a binding for a previously absent key makes it found. -/
theorem mapLookup_append_single (m : List (Nat × Nat)) (k v : Nat)
    (hnone : mapLookup m k = none) :
    mapLookup (m ++ [(k, v)]) k = some v := by
  induction m with
  | nil => simp [mapLookup]
  | cons e rest ih =>
    by_cases he : (e.1 == k) = true
    · simp [mapLookup, he] at hnone
    · simp only [List.cons_append, mapLookup, he, if_false]
      exact ih (by simpa [mapLookup, he] using hnone)

/-- Replacing the value of a present key makes the new value found. -/
theorem mapLookup_mapReplace (m : List (Nat × Nat)) (k v h : Nat)
    (hsome : mapLookup m k = some h) :
    mapLookup (mapReplace m k v) k = some v := by
  induction m with
  | nil => simp [mapLookup] at hsome
  | cons e rest ih =>
    by_cases he : (e.1 == k) = true
    · simp [mapReplace, he, mapLookup]
    · simp only [mapReplace, he, if_false, mapLookup]
      exact ih (by simpa [mapLookup, he] using hsome)

/-- With unique keys, filtering an association list by value liveness
keeps exactly the live bindings. -/
theorem mapLookup_filter_live (m : List (Nat × Nat)) (live : List Nat)
    (hkeys : (m.map Prod.fst).Nodup) (key h : Nat) :
    mapLookup (m.filter (fun e => liveContains live e.2)) key = some h ↔
      (mapLookup m key = some h ∧ liveContains live h = true) := by
  induction m with
  | nil => simp [mapLookup]
  | cons e rest ih =>
    have hkeys' : (rest.map Prod.fst).Nodup :=
      (List.nodup_cons.mp (by simpa using hkeys)).2
    have hnotin : e.1 ∉ rest.map Prod.fst :=
      (List.nodup_cons.mp (by simpa using hkeys)).1
    by_cases hk : (e.1 == key) = true
    · have hkey : e.1 = key := by simpa using hk
      cases hlv : liveContains live e.2 with
      | true =>
        rw [List.filter_cons_of_pos (by simpa using hlv)]
        simp only [mapLookup, hk, if_pos]
        constructor
        · intro hh
          have : e.2 = h := by injection hh
          subst this
          exact ⟨rfl, hlv⟩
        · exact fun hh => hh.1
      | false =>
        rw [List.filter_cons_of_neg (by simpa using hlv)]
        have hrest : mapLookup rest key = none := by
          apply mapLookup_eq_none_of_not_mem
          rw [← hkey]
          exact hnotin
        rw [ih hkeys']
        simp only [mapLookup, hk, if_pos, hrest]
        constructor
        · rintro ⟨hcontra, _⟩
          exact absurd hcontra (by simp)
        · rintro ⟨hh, hlive⟩
          have : e.2 = h := by injection hh
          subst this
          exact absurd hlive (by simp [hlv])
    · have step : mapLookup ((e :: rest).filter
          (fun x => liveContains live x.2)) key =
          mapLookup (rest.filter (fun x => liveContains live x.2)) key := by
        cases hlv : liveContains live e.2 with
        | true =>
          rw [List.filter_cons_of_pos (by simpa using hlv)]
          simp [mapLookup, hk]
        | false =>
          rw [List.filter_cons_of_neg (by simpa using hlv)]
      rw [step, ih hkeys']
      simp [mapLookup, hk]

/-- **C9.** `get_mutex` returns the existing handle and leaves the map
untouched when the entry for the key is present and still upgrades;
otherwise it returns a fresh handle (one that the map never held
alive) and installs it under the key; and `cleanup` keeps exactly the
entries whose handle still upgrades. -/
theorem keyed_mutex_acquire_cleanup (s : KeyedMutexState) (k : Nat)
    (hlive : ∀ h ∈ s.live, h < s.nextId)
    (hkeys : (s.map.map Prod.fst).Nodup) :
    (∀ h, mapLookup s.map k = some h → liveContains s.live h = true →
        get_mutex s k = (h, s)) ∧
    ((mapLookup s.map k = none ∨
        (∃ h, mapLookup s.map k = some h ∧ liveContains s.live h = false)) →
      (get_mutex s k).1 = s.nextId ∧
      liveContains s.live s.nextId = false ∧
      mapLookup (get_mutex s k).2.map k = some s.nextId ∧
      liveContains (get_mutex s k).2.live s.nextId = true) ∧
    (∀ key h, mapLookup (cleanup s).map key = some h ↔
        (mapLookup s.map key = some h ∧ liveContains s.live h = true)) := by
  have hfreshDead : liveContains s.live s.nextId = false := by
    cases hval : liveContains s.live s.nextId with
    | false => rfl
    | true =>
      have hmem := (liveContains_iff _ _).mp hval
      exact absurd (hlive _ hmem) (lt_irrefl _)
  refine ⟨?_, ?_, ?_⟩
  · intro h hl hup
    simp [get_mutex, hl, hup]
  · rintro (hnone | ⟨h, hsome, hdead⟩)
    · refine ⟨?_, hfreshDead, ?_, ?_⟩
      · simp [get_mutex, hnone]
      · simp only [get_mutex, hnone]
        exact mapLookup_append_single s.map k s.nextId hnone
      · simp [get_mutex, hnone, liveContains]
    · refine ⟨?_, hfreshDead, ?_, ?_⟩
      · simp [get_mutex, hsome, hdead]
      · simp only [get_mutex, hsome, hdead, Bool.false_eq_true, if_false]
        exact mapLookup_mapReplace s.map k s.nextId h hsome
      · simp [get_mutex, hsome, hdead, liveContains]
  · intro key h
    exact mapLookup_filter_live s.map s.live hkeys key h

/-- Witness for C9: on the fixture state, acquiring the live key 5
returns the same handle unchanged, and key 7 (dead handle 1) does not
survive cleanup. -/
theorem keyed_mutex_acquire_cleanup_witness :
    get_mutex kmState1 5 = (0, kmState1) ∧
    mapLookup (cleanup kmState1).map 7 ≠ some 1 := by
  have hthm := keyed_mutex_acquire_cleanup kmState1 5 (by decide) (by decide)
  refine ⟨hthm.1 0 rfl rfl, ?_⟩
  intro hc
  exact absurd ((hthm.2.2 7 1).mp hc).2 (by decide)

/-- **C4.** The error-state reclaim the spec promises cannot happen:
on the store whose only row (visible through both pools) is in state
`error` and owned by the requesting supervisor, `assign_process` fails
with the MySQL parse error of its candidate query
(`supervisor_id IS ?`) instead of claiming the process; and even past
that error the per-source claimable query selects only
`created`/`pending` rows, so it returns nothing for the error-owned
row. -/
theorem error_owned_process_not_reclaimed :
    rowErrorU1.state = "error" ∧ rowErrorU1.supervisor_id = some "S-1" ∧
    assign_process storeError "S-1" = some (.error er_parse_error) ∧
    get_available_source_processes_stream storeError 1 1 = [] :=
  ⟨rfl, rfl, rfl, rfl⟩

/-- **C5 counterexample.** The `AssignedProcess` value the
successful-claim path constructs (state `Processing`,
src/dispatcher.rs:223 and :228-235) serializes its `state` field as
the serde variant name `"Processing"`, not as the lowercase
`"processing"` the claim states. -/
theorem claim_body_state_is_capitalized :
    apCoherent.state = .Processing ∧
    apCoherent.serdeJson.getField "state" = some (.str "Processing") ∧
    Json.str "Processing" ≠ Json.str "processing" := by
  refine ⟨rfl, rfl, ?_⟩
  intro hc
  injection hc with hc'
  exact absurd hc' (by decide)

/-- **C5 amended.** Every assigned-process body the code can produce —
the serialization of an `AssignedProcess` whose state is `Processing`,
the only state the claim path constructs (src/dispatcher.rs:223) —
has `state` equal to the string `"Processing"`, `mode` equal to
`"Regular"` or `"Sandbox"`, and `created_at` equal to the integer
count of milliseconds since the Unix epoch of the row's UTC
timestamp. -/
theorem claim_body_shape (ap : AssignedProcess)
    (h : ap.state = .Processing) :
    ap.serdeJson.getField "state" = some (.str "Processing") ∧
    (ap.serdeJson.getField "mode" = some (.str "Regular") ∨
      ap.serdeJson.getField "mode" = some (.str "Sandbox")) ∧
    ap.serdeJson.getField "created_at" =
      some (.num ap.created_at.toEpochMillis) := by
  refine ⟨?_, ?_, rfl⟩
  · have hs : ap.serdeJson.getField "state" = some ap.state.serdeJson := rfl
    rw [hs, h]
    rfl
  · have hm : ap.serdeJson.getField "mode" = some ap.mode.serdeJson := rfl
    rw [hm]
    cases ap.mode with
    | Regular => exact Or.inl rfl
    | Sandbox => exact Or.inr rfl

/-- Witness for C5 (amended) at the concrete claim value. -/
theorem claim_body_shape_witness :
    apCoherent.state = .Processing ∧
    (apCoherent.serdeJson.getField "state" = some (.str "Processing") ∧
      (apCoherent.serdeJson.getField "mode" = some (.str "Regular") ∨
        apCoherent.serdeJson.getField "mode" = some (.str "Sandbox")) ∧
      apCoherent.serdeJson.getField "created_at" =
        some (.num apCoherent.created_at.toEpochMillis)) :=
  ⟨rfl, claim_body_shape apCoherent rfl⟩

end PD
